import Mathlib

/-!
Verification of the RTCDDARMP drift-detection / model-lifecycle system.

This file gives a shallow embedding, in Lean 4, of the parts of the
repository that the verified properties speak about:

* `src/backend/engines/model_registry.py` — the versioned model registry
  (`ModelMetadata`, `ModelRegistry` and its operations);
* `src/backend/engines/retrain_engine.py` — the retraining pipeline
  (`RetrainEngine.trigger_retraining`);
* `src/backend/engines/drift_detector.py` — the drift-report aggregation
  (`DriftDetector.detect_drift`, `_classify_drift_type`);
* `src/backend/engines/adwin.py` — the ADWIN change detector.

Python dictionaries are embedded as insertion-ordered association lists
(`dictGet` / `dictInsert` / `dictRemove` mirror `d[k]`, `d[k] = v`,
`del d[k]`).  Machine reals are embedded as rationals; the SHA-256
checksum and the pickle serialisation are abstracted (the checksum as an
arbitrary function on artifact bytes, a pickled model as its byte
contents), since none of the verified properties depend on their
internals.
-/

namespace RTCDDARMP

/-- Serialized artifact bytes: the contents of a `model_{version}.pkl` file. -/
abbrev Bytes := List Nat

/-- `ModelMetadata` (model_registry.py, lines 18–34).  The checksum is a
natural number produced by an abstract hash function instead of a SHA-256
hex string. -/
structure ModelMetadata where
  version : String
  created_at : String
  model_type : String
  accuracy : ℚ
  drift_score : ℚ
  training_samples : Nat
  validation_samples : Nat
  hyperparameters : List (String × ℚ)
  feature_names : List String
  checksum : Nat
  promoted : Bool := false
  champion : Bool := false
  notes : String := ""
  deriving DecidableEq, Repr

/-- `d[k]` on an insertion-ordered dictionary: value at the first (unique)
occurrence of the key. -/
def dictGet {α : Type} : List (String × α) → String → Option α
  | [], _ => none
  | (k', v') :: rest, k => if k' = k then some v' else dictGet rest k

/-- `d[k] = v`: replace the value in place when the key is present,
otherwise append the new binding (Python dict insertion order). -/
def dictInsert {α : Type} : List (String × α) → String → α → List (String × α)
  | [], k, v => [(k, v)]
  | (k', v') :: rest, k, v =>
    if k' = k then (k', v) :: rest else (k', v') :: dictInsert rest k v

/-- `del d[k]`: drop the (unique) binding for the key. -/
def dictRemove {α : Type} : List (String × α) → String → List (String × α)
  | [], _ => []
  | (k', v') :: rest, k => if k' = k then rest else (k', v') :: dictRemove rest k

/-- The registry's mutable state: the `self.models` metadata dictionary and
the `model_{version}.pkl` artifact files in the registry directory. -/
structure RegistryState where
  models : List (String × ModelMetadata)
  files : List (String × Bytes)
  deriving DecidableEq, Repr

/-- A registry over an empty directory. -/
def emptyRegistry : RegistryState := ⟨[], []⟩

/-- `ModelRegistry.register_model` (lines 61–99): write the pickled model
to `model_{version}.pkl`, compute the file's checksum, store it into the
metadata, and insert the metadata record under `metadata.version`.
There is no duplicate-version check: an existing version's file and
record are overwritten.  Returns the version. -/
def register_model (sha : Bytes → Nat) (st : RegistryState) (modelBytes : Bytes)
    (metadata : ModelMetadata) : RegistryState × String :=
  let version := metadata.version
  let files' := dictInsert st.files version modelBytes
  let checksum := sha modelBytes
  let metadata' := { metadata with checksum := checksum }
  (⟨dictInsert st.models version metadata', files'⟩, version)

/-- `ModelRegistry.get_latest_model` (lines 213–223):
`sorted(models.items(), key=created_at, reverse=True)[0]`.  Python's sort
is stable, so among records sharing the maximal `created_at` the
earliest-inserted one is returned; `foldl` with a strict comparison
realises exactly that. -/
def get_latest_model (st : RegistryState) : Option ModelMetadata :=
  match st.models with
  | [] => none
  | p :: rest =>
    some ((rest.foldl
      (fun acc q => if acc.2.created_at < q.2.created_at then q else acc) p).2)

/-- `ModelRegistry.get_champion_model` (lines 204–211): the first record
with the champion flag set, and otherwise — the fallback — the latest
registered model. -/
def get_champion_model (st : RegistryState) : Option ModelMetadata :=
  match st.models.find? (fun p => p.2.champion) with
  | some p => some p.2
  | none => get_latest_model st

/-- `ModelRegistry.promote_model` (lines 147–171): unknown version fails
with `False`; otherwise set the record's `promoted` flag. -/
def promote_model (st : RegistryState) (version : String) : RegistryState × Bool :=
  match dictGet st.models version with
  | none => (st, false)
  | some _ =>
    (⟨st.models.map (fun p =>
        if p.1 = version then (p.1, { p.2 with promoted := true }) else p),
      st.files⟩, true)

/-- First phase of `set_champion`: `self.models[v].champion = False` for
every record (lines 191–193). -/
def clearChampion (p : String × ModelMetadata) : String × ModelMetadata :=
  (p.1, { p.2 with champion := false })

/-- Second phase of `set_champion`: `self.models[version].champion = True`
(line 196) — the record stored under `version` gets the flag. -/
def markChampion (version : String) (p : String × ModelMetadata) :
    String × ModelMetadata :=
  if p.1 = version then (p.1, { p.2 with champion := true }) else p

/-- `ModelRegistry.set_champion` (lines 173–202): unknown version fails
with `False`; otherwise clear the champion flag on every record, then set
it on the target record. -/
def set_champion (st : RegistryState) (version : String) : RegistryState × Bool :=
  match dictGet st.models version with
  | none => (st, false)
  | some _ =>
    let cleared := st.models.map clearChampion
    let updated := cleared.map (markChampion version)
    (⟨updated, st.files⟩, true)

/-- `ModelRegistry.rollback_to_version` (lines 233–257): `set_champion`
plus an extra audit annotation (audit logging is not modelled). -/
def rollback_to_version (st : RegistryState) (version : String) : RegistryState × Bool :=
  set_champion st version

/-- `ModelRegistry.delete_model` (lines 259–292): unknown version fails;
deleting the champion fails; otherwise the artifact file and the metadata
record are removed. -/
def delete_model (st : RegistryState) (version : String) : RegistryState × Bool :=
  match dictGet st.models version with
  | none => (st, false)
  | some md =>
    if md.champion then (st, false)
    else (⟨dictRemove st.models version, dictRemove st.files version⟩, true)

/-- `ModelRegistry.list_models` (lines 229–231). -/
def list_models (st : RegistryState) : List ModelMetadata :=
  st.models.map Prod.snd

/-- Outcome of `ModelRegistry.load_model` (lines 101–145).  The code
returns `None` on three distinct paths, each with its own log message;
the constructors keep them apart.  `loaded b` stands for the model
unpickled from the artifact bytes `b`. -/
inductive LoadResult where
  | noChampion
  | fileNotFound
  | checksumMismatch
  | loaded (modelBytes : Bytes)
  deriving DecidableEq, Repr

/-- The body of `load_model` once a version string is in hand (lines
123–145): missing file fails; when a metadata record exists the stored
checksum is compared against the recomputed one and a mismatch fails;
otherwise the artifact is unpickled and returned. -/
def loadVersion (sha : Bytes → Nat) (st : RegistryState) (version : String) : LoadResult :=
  match dictGet st.files version with
  | none => .fileNotFound
  | some modelBytes =>
    match dictGet st.models version with
    | some metadata =>
      if metadata.checksum ≠ sha modelBytes then .checksumMismatch
      else .loaded modelBytes
    | none => .loaded modelBytes

/-- `ModelRegistry.load_model` (lines 101–145): with no explicit version
the champion (or, failing that, the latest model) is resolved first. -/
def load_model (sha : Bytes → Nat) (st : RegistryState) (version : Option String) :
    LoadResult :=
  match version with
  | some v => loadVersion sha st v
  | none =>
    match get_champion_model st with
    | none => .noChampion
    | some metadata => loadVersion sha st metadata.version

/-- One public mutating registry operation, as invoked by a caller. -/
inductive RegistryOp where
  | register (modelBytes : Bytes) (metadata : ModelMetadata)
  | promote (version : String)
  | setChampion (version : String)
  | rollback (version : String)
  | delete (version : String)
  deriving Repr

/-- Apply one registry operation to the state (the returned
success/failure value is dropped). -/
def applyOp (sha : Bytes → Nat) (st : RegistryState) : RegistryOp → RegistryState
  | .register modelBytes metadata => (register_model sha st modelBytes metadata).1
  | .promote version => (promote_model st version).1
  | .setChampion version => (set_champion st version).1
  | .rollback version => (rollback_to_version st version).1
  | .delete version => (delete_model st version).1

/-- Apply a sequence of registry operations in order. -/
def applyOps (sha : Bytes → Nat) (st : RegistryState) (ops : List RegistryOp) :
    RegistryState :=
  ops.foldl (applyOp sha) st

/-- True unless the operation is a `register` whose caller-supplied
metadata already carries `champion = true`.  Every register call in the
repository (`RetrainEngine._train_and_register`, the tests) builds its
metadata with the dataclass default `champion = False`. -/
def benignRegister : RegistryOp → Bool
  | .register _ metadata => !metadata.champion
  | _ => true

/-- Number of metadata records with the champion flag set. -/
def champCount (st : RegistryState) : Nat :=
  (st.models.filter (fun p => p.2.champion)).length

/-- Versions of the records with the champion flag set, in table order. -/
def championVersions (st : RegistryState) : List String :=
  (st.models.filter (fun p => p.2.champion)).map Prod.fst

/-- Registry well-formedness: dictionary keys are unique (Python dict
keys always are) and every record is stored under its own version (true
of every state the registry itself builds, since `register_model` keys
records by `metadata.version` and never rewrites the field). -/
def Wf (st : RegistryState) : Prop :=
  (st.models.map Prod.fst).Nodup ∧ ∀ p ∈ st.models, ModelMetadata.version p.2 = p.1

instance (st : RegistryState) : Decidable (Wf st) := by
  unfold Wf; infer_instance

/-!
Retraining pipeline (src/backend/engines/retrain_engine.py).

`trigger_retraining` is embedded with its environment-dependent steps as
parameters: the synthetic training data is represented by its sample
count (`nSamples`; the code always generates 500), the external trainer
by the candidate's serialized bytes, fresh time-derived version string,
creation timestamp and held-out accuracy, and the validation gate
(`ModelValidator.validate_model`, a separate engine) by its boolean
`passed` outcome.  Everything the function does with the registry is the
registry model above.
-/

/-- Configuration value `min_training_samples` (retrain_engine.py, line 45). -/
def minTrainingSamples : Nat := 100

/-- Threshold `improvement_margin = 0.02` (retrain_engine.py, line 57). -/
def improvementMargin : ℚ := 2/100

/-- Outcome of `trigger_retraining`: one constructor per return statement
of the code (lines 130, 152, 174 and 236), with the fields the claims
speak about.  In the final return the code sets `success = promoted` and
a message reading "Retraining triggered successfully" when promoted and
"Retraining completed, but model not promoted" otherwise. -/
inductive RetrainResult where
  | insufficientData (samples : Nat)
  | autoPromoted (version : String)
  | validationFailed (version : String)
  | completed (version : String) (promoted : Bool) (improvement : ℚ)
  deriving DecidableEq, Repr

/-- Value of the `promoted` key of the returned dictionary (absent — here
`false` — only for the `insufficient_data` return). -/
def RetrainResult.promotedFlag : RetrainResult → Bool
  | .insufficientData _ => false
  | .autoPromoted _ => true
  | .validationFailed _ => false
  | .completed _ promoted _ => promoted

/-- The metadata `_train_and_register` builds for the candidate
(retrain_engine.py, lines 281–297): fresh version, `promoted` and
`champion` default to false, checksum filled in by the registry. -/
def candidateMetadata (version created_at : String) (accuracy drift_score : ℚ)
    (nSamples : Nat) (reason : String) : ModelMetadata :=
  { version := version, created_at := created_at,
    model_type := "RandomForestClassifier",
    accuracy := accuracy, drift_score := drift_score,
    training_samples := nSamples - nSamples / 5, validation_samples := nSamples / 5,
    hyperparameters := [("n_estimators", 100), ("max_depth", 10), ("random_state", 42)],
    feature_names := ["feature_0", "feature_1", "feature_2"],
    checksum := 0, promoted := false, champion := false,
    notes := "Trained due to: " ++ reason }

/-- Registry state plus returned result of one `trigger_retraining` call. -/
structure RetrainOutcome where
  registry : RegistryState
  result : RetrainResult
  deriving Repr

/-- `RetrainEngine.trigger_retraining` (retrain_engine.py, lines 89–251):
reject if the training window is too small; train and register the
candidate; read the champion back (`get_champion_model`); if that read
yields nothing, auto-promote the candidate ("no previous champion");
otherwise validate the candidate, and on a validation pass promote it
exactly when `accuracy − champion.accuracy ≥ improvement_margin`.  The
candidate accuracy reread in step 5 through `get_model_metadata` is the
accuracy just registered. -/
def trigger_retraining (sha : Bytes → Nat) (st : RegistryState) (nSamples : Nat)
    (modelBytes : Bytes) (version created_at : String) (accuracy : ℚ)
    (validationPassed : Bool) (drift_score : ℚ) (reason : String) : RetrainOutcome :=
  if nSamples < minTrainingSamples then ⟨st, .insufficientData nSamples⟩
  else
    let metadata := candidateMetadata version created_at accuracy drift_score
      nSamples reason
    let st1 := (register_model sha st modelBytes metadata).1
    match get_champion_model st1 with
    | none => ⟨(set_champion st1 version).1, .autoPromoted version⟩
    | some current =>
      if validationPassed = false then ⟨st1, .validationFailed version⟩
      else
        let improvement := accuracy - current.accuracy
        if improvementMargin ≤ improvement then
          ⟨(set_champion st1 version).1, .completed version true improvement⟩
        else
          ⟨st1, .completed version false improvement⟩

/-!
Drift-report aggregation (src/backend/engines/drift_detector.py).

`detect_drift` first computes, per feature, PSI, the two-sample KS test,
KL divergence (backend/engines/stat_tests.py — real-valued statistics
built on logarithms and scipy) and the feature's ADWIN flag, and, when
reference predictions/labels are present, PSI and KS over those streams.
Those computed per-signal statistics are the inputs of the embedding
(`FeatureStats`, `PredictionStats`, `ConceptStats`); the aggregation the
claims are about — scoring, the affected set, the overall mean, the
clamp, and the drift-type classification (lines 156–288) — is embedded
in full.
-/

/-- Per-feature statistics computed at lines 169–180 of detect_drift. -/
structure FeatureStats where
  psi : ℚ
  ks_stat : ℚ
  ks_pval : ℚ
  kl_div : ℚ
  ks_drift : Bool
  adwin_drift : Bool
  deriving DecidableEq, Repr

/-- Prediction-stream statistics (lines 210–219). -/
structure PredictionStats where
  psi : ℚ
  ks_stat : ℚ
  deriving DecidableEq, Repr

/-- Label-stream statistics (lines 231–235). -/
structure ConceptStats where
  psi : ℚ
  deriving DecidableEq, Repr

/-- Configuration value `drift_threshold = 0.2` (drift_detector.py, line 52). -/
def driftThreshold : ℚ := 1/5

/-- Per-feature drift score (lines 183–189):
`(psi/0.2)*25 + ks_stat*25 + min(kl_div, 1.0)*25 + (1 if adwin else 0)*25`. -/
def featureScore (fs : FeatureStats) : ℚ :=
  (fs.psi / (1/5)) * 25 + fs.ks_stat * 25 + min fs.kl_div 1 * 25 +
    (if fs.adwin_drift then (1 : ℚ) else 0) * 25

/-- A feature counts as affected when `psi > drift_threshold or ks_drift
or adwin_drift` (line 203). -/
def affectedTest (fs : FeatureStats) : Bool :=
  decide (driftThreshold < fs.psi) || fs.ks_drift || fs.adwin_drift

/-- The per-feature loop of detect_drift (lines 163–205), carrying the
running feature index: affected features contribute their index to
`affected_features` and their score to `drift_scores`, in index order. -/
def featureLoop (i : Nat) : List FeatureStats → List ℚ × List Nat
  | [] => ([], [])
  | fs :: rest =>
    let tail := featureLoop (i + 1) rest
    if affectedTest fs then (featureScore fs :: tail.1, i :: tail.2)
    else tail

/-- Prediction-drift score (line 221): `(psi/0.2)*50 + ks_stat*50`. -/
def predictionScore (ps : PredictionStats) : ℚ :=
  (ps.psi / (1/5)) * 50 + ps.ks_stat * 50

/-- Concept-drift score (line 237): `(psi/0.2)*100`. -/
def conceptScore (cs : ConceptStats) : ℚ :=
  (cs.psi / (1/5)) * 100

/-- The check `details[...]["psi"] > 0.2` guarded by the key's presence,
as used twice in `_classify_drift_type`. -/
def psiExceedsThreshold : Option ℚ → Bool
  | none => false
  | some psi => decide (driftThreshold < psi)

/-- `DriftDetector._classify_drift_type` (lines 276–288): only when at
least one feature is affected does the concept/prediction/data priority
chain run; otherwise the type is "none". -/
def classify_drift_type (conceptPsi predictionPsi : Option ℚ)
    (affected_features : List Nat) : String :=
  if 0 < affected_features.length then
    if psiExceedsThreshold conceptPsi then "concept_drift"
    else if psiExceedsThreshold predictionPsi then "prediction_drift"
    else "data_drift"
  else "none"

/-- `DriftDetector._classify_severity` (lines 290–299). -/
def classify_severity (drift_score : ℚ) : String :=
  if 70 ≤ drift_score then "high"
  else if 40 ≤ drift_score then "moderate"
  else if 20 ≤ drift_score then "low"
  else "none"

/-- `DriftDetector._get_recommendation` (lines 301–310). -/
def get_recommendation (severity : String) : String :=
  if severity = "high" then "URGENT: Trigger immediate retraining"
  else if severity = "moderate" then "Schedule retraining within 24 hours"
  else if severity = "low" then "Monitor closely, consider retraining if persists"
  else "No action required"

/-- The report `detect_drift` returns (the per-signal `details`, the
timestamp and the recommendation text are carried by the inputs or
derived; the early returns carry no `recommended_action` key, embedded
as the empty string). -/
structure DriftReport where
  drift_score : ℚ
  drift_type : String
  severity : String
  affected_features : List Nat
  recommended_action : String
  deriving DecidableEq, Repr

/-- `DriftDetector.detect_drift` (lines 122–274) over the computed
per-signal statistics: early return when no reference is set; early
return with severity `insufficient_data` when fewer than 30 current
samples exist; otherwise scores of affected features, then the
prediction score (when predictions are available), then the concept
score (when labels are available) are collected, the overall score is
their mean (0 when the list is empty) clamped to [0, 100], and type and
severity are classified. -/
def detect_drift (hasReference : Bool) (currentCount : Nat)
    (features : List FeatureStats) (predictionStats : Option PredictionStats)
    (conceptStats : Option ConceptStats) : DriftReport :=
  if hasReference = false then
    ⟨0, "none", "none", [], ""⟩
  else if currentCount < 30 then
    ⟨0, "none", "insufficient_data", [], ""⟩
  else
    let looped := featureLoop 0 features
    let drift_scores := looped.1
      ++ (predictionStats.map predictionScore).toList
      ++ (conceptStats.map conceptScore).toList
    let affected_features := looped.2
    let meanScore := if drift_scores.isEmpty then 0
      else drift_scores.sum / (drift_scores.length : ℚ)
    let overall := min 100 (max 0 meanScore)
    let dtype := classify_drift_type (conceptStats.map ConceptStats.psi)
      (predictionStats.map PredictionStats.psi) affected_features
    let severity := classify_severity overall
    ⟨overall, dtype, severity, affected_features, get_recommendation severity⟩

/-- Overall score as claim C4 reads it: the mean over the feature score
of EVERY feature plus the prediction and concept scores, clamped.  This
definition follows the claim's words, for comparison with the code's
`detect_drift`. -/
def claimedOverallScore (features : List FeatureStats)
    (predictionStats : Option PredictionStats)
    (conceptStats : Option ConceptStats) : ℚ :=
  let scores := features.map featureScore
    ++ (predictionStats.map predictionScore).toList
    ++ (conceptStats.map conceptScore).toList
  min 100 (max 0 (if scores.isEmpty then 0 else scores.sum / (scores.length : ℚ)))

/-- Declarative form of the score the code actually computes: the mean
over the scores of the AFFECTED features plus the available
prediction/concept scores, clamped.  Stated independently of the
imperative loop for comparison with `detect_drift`. -/
def affectedOverallScore (features : List FeatureStats)
    (predictionStats : Option PredictionStats)
    (conceptStats : Option ConceptStats) : ℚ :=
  let scores := (features.filter affectedTest).map featureScore
    ++ (predictionStats.map predictionScore).toList
    ++ (conceptStats.map conceptScore).toList
  min 100 (max 0 (if scores.isEmpty then 0 else scores.sum / (scores.length : ℚ)))

/-!
ADWIN (src/backend/engines/adwin.py).

The code's drift test compares `abs(mean0 - mean1)` against the
Hoeffding bound `epsilon = sqrt((1/(2m)) * log(4/delta))`.  Both sides
are nonnegative whenever `log(4/delta) ≥ 0` (so for every `delta ≤ 4`,
in particular the default 0.002), and the comparison is embedded as the
equivalent `(mean0 - mean1)^2 > epsilon^2` to stay inside ℚ.  Since the
logarithm is transcendental, the constant `log(4/delta)` is carried in
the state as the field `ln4OverDelta` alongside `delta`. -/

/-- State of one ADWIN detector (adwin.py, lines 27–34). -/
structure ADWIN where
  delta : ℚ
  ln4OverDelta : ℚ
  window : List ℚ
  total : ℚ
  variance : ℚ
  width : Nat
  drift_detected : Bool
  drift_count : Nat
  deriving DecidableEq, Repr

/-- A freshly constructed detector: empty window, all counters zero. -/
def ADWIN.init (delta ln4OverDelta : ℚ) : ADWIN :=
  ⟨delta, ln4OverDelta, [], 0, 0, 0, false, 0⟩

/-- Population variance `np.var`, used when recomputing the variance of
the retained suffix. -/
def popVariance (l : List ℚ) : ℚ :=
  ((l.map (fun x => (x - l.sum / (l.length : ℚ)) ^ 2)).sum) / (l.length : ℚ)

/-- One candidate cut point of `_detect_change` (adwin.py, lines 89–111):
split at `i`, skip when either side has fewer than 5 samples, otherwise
test the squared mean difference against the squared Hoeffding bound
`(1/(2m)) * log(4/delta)` with `m = 1/(1/n0 + 1/n1)`. -/
def splitQualifies (w : List ℚ) (ln4OverDelta : ℚ) (i : Nat) : Bool :=
  let w0 := w.take i
  let w1 := w.drop i
  let n0 := w0.length
  let n1 := w1.length
  if n0 < 5 || n1 < 5 then false
  else
    let mean0 := w0.sum / (n0 : ℚ)
    let mean1 := w1.sum / (n1 : ℚ)
    let m : ℚ := 1 / (1 / (n0 : ℚ) + 1 / (n1 : ℚ))
    let epsilonSq := (1 / (2 * m)) * ln4OverDelta
    decide (epsilonSq < (mean0 - mean1) ^ 2)

/-- The scan `for i in range(1, n)` stops at the first qualifying cut. -/
def firstQualifyingSplit (w : List ℚ) (ln4OverDelta : ℚ) : Option Nat :=
  (List.range w.length).find? (fun i => decide (1 ≤ i) && splitQualifies w ln4OverDelta i)

/-- `ADWIN._detect_change` (adwin.py, lines 75–127): at the first
qualifying cut point the prefix of stale data is dropped — the window
loses its first `i` elements, the total loses their sum, the width drops
by `i` and the variance is recomputed from the remainder — and the call
reports a change; with no qualifying cut nothing changes. -/
def ADWIN.detectChange (a : ADWIN) : ADWIN × Bool :=
  match firstQualifyingSplit a.window a.ln4OverDelta with
  | none => (a, false)
  | some i =>
    let removedSum := (a.window.take i).sum
    let window := a.window.drop i
    let width := a.width - i
    let variance :=
      if 0 < width then (if 1 < width then popVariance window * (width : ℚ) else 0)
      else a.variance
    (⟨a.delta, a.ln4OverDelta, window, a.total - removedSum, variance, width,
      a.drift_detected, a.drift_count⟩, true)

/-- `ADWIN.add_element` (adwin.py, lines 36–73): append the value, update
total and Welford-style variance, clear the last-call flag, and — once
at least two observations exist — run the change test, recording a
detected drift in the flag and cumulative counter. -/
def ADWIN.addElement (a : ADWIN) (value : ℚ) : ADWIN × Bool :=
  let window := a.window ++ [value]
  let width := a.width + 1
  let stats :=
    if width = 1 then (value, (0 : ℚ))
    else
      let old_mean := a.total / ((width : ℚ) - 1)
      let total := a.total + value
      let new_mean := total / (width : ℚ)
      (total, a.variance + (value - old_mean) * (value - new_mean))
  let a1 : ADWIN := ⟨a.delta, a.ln4OverDelta, window, stats.1, stats.2, width,
    false, a.drift_count⟩
  if 1 < width then
    let step := a1.detectChange
    if step.2 then
      ({ step.1 with drift_detected := true, drift_count := step.1.drift_count + 1 }, true)
    else (step.1, false)
  else (a1, false)

/-- Feed a stream of values one at a time, collecting each call's
returned drift flag. -/
def ADWIN.feed (a : ADWIN) : List ℚ → ADWIN × List Bool
  | [] => (a, [])
  | v :: rest =>
    let step := a.addElement v
    let tail := step.1.feed rest
    (tail.1, step.2 :: tail.2)

/-! Concrete sample values, used by witnesses and counterexamples. -/

/-- Build a concrete metadata record (other fields as the retrain engine
fills them for a 500-sample training set). -/
def mkMd (version created_at : String) (accuracy : ℚ) (checksum : Nat)
    (promoted champion : Bool) : ModelMetadata :=
  { version := version, created_at := created_at,
    model_type := "RandomForestClassifier", accuracy := accuracy,
    drift_score := 0, training_samples := 400, validation_samples := 100,
    hyperparameters := [("n_estimators", 100), ("max_depth", 10)],
    feature_names := ["feature_0", "feature_1", "feature_2"],
    checksum := checksum, promoted := promoted, champion := champion }

/-- A concrete stand-in for the abstract artifact hash. -/
def shaSum : Bytes → Nat := fun b => b.sum

/-! Dictionary lemmas. -/

theorem dictGet_dictInsert_self {α : Type} (l : List (String × α)) (k : String) (v : α) :
    dictGet (dictInsert l k v) k = some v := by
  induction l with
  | nil => simp [dictInsert, dictGet]
  | cons p rest ih =>
    obtain ⟨k', v'⟩ := p
    by_cases h : k' = k
    · simp [dictInsert, dictGet, h]
    · simp [dictInsert, dictGet, h, ih]

theorem dictGet_eq_none_of_not_mem {α : Type} {l : List (String × α)} {k : String}
    (h : k ∉ l.map Prod.fst) : dictGet l k = none := by
  induction l with
  | nil => rfl
  | cons p rest ih =>
    obtain ⟨k', v'⟩ := p
    simp only [List.map_cons, List.mem_cons] at h
    push_neg at h
    simp [dictGet, Ne.symm h.1, ih h.2]

theorem dictGet_dictRemove_self {α : Type} {l : List (String × α)} {k : String}
    (h : (l.map Prod.fst).Nodup) : dictGet (dictRemove l k) k = none := by
  induction l with
  | nil => rfl
  | cons p rest ih =>
    obtain ⟨k', v'⟩ := p
    simp only [List.map_cons, List.nodup_cons] at h
    by_cases hk : k' = k
    · subst hk
      simpa [dictRemove] using dictGet_eq_none_of_not_mem h.1
    · simp [dictRemove, dictGet, hk, ih h.2]

theorem mem_and_ne_of_mem_dictRemove {α : Type} {l : List (String × α)} {k : String}
    {p : String × α} (h : (l.map Prod.fst).Nodup) (hp : p ∈ dictRemove l k) :
    p ∈ l ∧ p.1 ≠ k := by
  induction l with
  | nil => simp [dictRemove] at hp
  | cons q rest ih =>
    obtain ⟨k', v'⟩ := q
    simp only [List.map_cons, List.nodup_cons] at h
    by_cases hk : k' = k
    · subst hk
      simp only [dictRemove, if_pos rfl] at hp
      refine ⟨List.mem_cons_of_mem _ hp, fun hpk => h.1 ?_⟩
      exact hpk ▸ List.mem_map_of_mem Prod.fst hp
    · simp only [dictRemove, if_neg hk] at hp
      rcases List.mem_cons.mp hp with rfl | hp'
      · exact ⟨List.mem_cons_self _ _, hk⟩
      · obtain ⟨h1, h2⟩ := ih h.2 hp'
        exact ⟨List.mem_cons_of_mem _ h1, h2⟩

/-! ### C2 — load verifies the stored checksum -/

/-- C2: for a version `v` whose metadata record and artifact file both
exist, `load_model` recomputes the artifact checksum and fails with the
integrity fault (`checksumMismatch`, the code's "Checksum mismatch" error
return) whenever it disagrees with the stored checksum; and `load_model`
never returns a loaded model whose recomputed checksum differs from the
checksum recorded for that version. -/
theorem C2_load_checksum_integrity (sha : Bytes → Nat) (st : RegistryState)
    (v : String) (md : ModelMetadata) (b : Bytes)
    (hmd : dictGet st.models v = some md) (hfile : dictGet st.files v = some b) :
    (sha b ≠ md.checksum → load_model sha st (some v) = LoadResult.checksumMismatch) ∧
    (∀ b', load_model sha st (some v) = LoadResult.loaded b' → sha b' = md.checksum) := by
  constructor
  · intro hne
    simp [load_model, loadVersion, hfile, hmd, Ne.symm hne]
  · intro b' hb'
    by_cases heq : md.checksum = sha b
    · simp only [load_model, loadVersion, hfile, hmd, ne_eq, heq, not_true_eq_false,
        if_false, LoadResult.loaded.injEq] at hb'
      rw [← hb', ← heq]
    · simp [load_model, loadVersion, hfile, hmd, heq] at hb'

/-- C2 witness: a concrete registry where the stored checksum (99) and the
recomputed one (3) disagree, so the load fails with the integrity fault. -/
theorem C2_load_checksum_integrity_w :
    let md := mkMd "v1" "2024-01-01T00:00:00" 1 99 false false
    let st : RegistryState := ⟨[("v1", md)], [("v1", [1, 2])]⟩
    (shaSum [1, 2] ≠ md.checksum →
      load_model shaSum st (some "v1") = LoadResult.checksumMismatch) ∧
    (∀ b', load_model shaSum st (some "v1") = LoadResult.loaded b' →
      shaSum b' = md.checksum) :=
  C2_load_checksum_integrity shaSum _ "v1" _ [1, 2] rfl rfl

/-! ### C10 — no metadata record, no integrity check -/

/-- C10: for a version absent from the metadata table whose artifact file
exists, `load_model` performs no checksum verification and returns the
deserialized artifact unconditionally — the result is the loaded bytes
for every choice of hash function — and an integrity fault can only ever
be reported for a version that has a metadata record. -/
theorem C10_load_without_metadata (st : RegistryState) (v : String) (b : Bytes)
    (hmd : dictGet st.models v = none) (hfile : dictGet st.files v = some b) :
    (∀ sha : Bytes → Nat, load_model sha st (some v) = LoadResult.loaded b) ∧
    (∀ (sha : Bytes → Nat) (st' : RegistryState) (v' : String),
      load_model sha st' (some v') = LoadResult.checksumMismatch →
      (dictGet st'.models v').isSome = true) := by
  constructor
  · intro sha
    simp [load_model, loadVersion, hfile, hmd]
  · intro sha st' v' h
    simp only [load_model, loadVersion] at h
    cases hf : dictGet st'.files v' with
    | none => simp [hf] at h
    | some b' =>
      cases hm : dictGet st'.models v' with
      | none => simp [hf, hm] at h
      | some md' => simp [hm]

/-- C10 witness: a registry directory holding an orphan `model_v9.pkl`
with no metadata record; the load returns the bytes under any hash. -/
theorem C10_load_without_metadata_w :
    (∀ sha : Bytes → Nat,
      load_model sha ⟨[], [("v9", [5, 5])]⟩ (some "v9") = LoadResult.loaded [5, 5]) ∧
    (∀ (sha : Bytes → Nat) (st' : RegistryState) (v' : String),
      load_model sha st' (some v') = LoadResult.checksumMismatch →
      (dictGet st'.models v').isSome = true) :=
  C10_load_without_metadata ⟨[], [("v9", [5, 5])]⟩ "v9" [5, 5] rfl rfl

/-! ### C6 — duplicate registration -/

/-- C6 counterexample: registering the same version twice does not fail —
`register_model` returns the version as on any other call — and the
existing metadata record and artifact file for that version are replaced,
not left unchanged. -/
theorem C6_counterexample :
    let md1 := mkMd "v1" "2024-01-01" 1 0 false false
    let md2 := mkMd "v1" "2024-01-02" 0 0 false false
    let st1 := (register_model shaSum emptyRegistry [1, 2] md1).1
    let st2 := (register_model shaSum st1 [7] md2).1
    (register_model shaSum st1 [7] md2).2 = "v1" ∧
    dictGet st2.models "v1" ≠ dictGet st1.models "v1" ∧
    dictGet st1.files "v1" = some [1, 2] ∧
    dictGet st2.files "v1" = some [7] := by decide

/-- C6 (amended): `register_model` performs no duplicate-version check;
registering metadata whose version is already present succeeds and
overwrites that version's artifact file and metadata record (with the
checksum recomputed from the new artifact). -/
theorem C6_register_overwrites (sha : Bytes → Nat) (st : RegistryState)
    (b : Bytes) (md : ModelMetadata)
    (_hdup : (dictGet st.models md.version).isSome = true) :
    (register_model sha st b md).2 = md.version ∧
    dictGet (register_model sha st b md).1.models md.version
      = some { md with checksum := sha b } ∧
    dictGet (register_model sha st b md).1.files md.version = some b := by
  refine ⟨rfl, ?_, ?_⟩ <;> simp [register_model, dictGet_dictInsert_self]

/-- C6 witness: overwriting a concretely registered version. -/
theorem C6_register_overwrites_w :
    let md1 := mkMd "v1" "2024-01-01" 1 0 false false
    let md2 := mkMd "v1" "2024-01-02" 0 0 false false
    let st1 := (register_model shaSum emptyRegistry [1, 2] md1).1
    (register_model shaSum st1 [7] md2).2 = md2.version ∧
    dictGet (register_model shaSum st1 [7] md2).1.models md2.version
      = some { md2 with checksum := shaSum [7] } ∧
    dictGet (register_model shaSum st1 [7] md2).1.files md2.version = some [7] :=
  C6_register_overwrites shaSum _ [7] _ rfl

/-! ### C7 — the champion cannot be deleted -/

/-- C7: deleting the current champion always fails and leaves the
registry state unchanged; deleting a registered non-champion version
succeeds, removes its record, and no model listed by `list_models`
afterwards carries that version. -/
theorem C7_delete_rules (st : RegistryState) (v : String) (md : ModelMetadata)
    (hwf : Wf st) (hget : dictGet st.models v = some md) :
    (md.champion = true → delete_model st v = (st, false)) ∧
    (md.champion = false →
      (delete_model st v).2 = true ∧
      dictGet (delete_model st v).1.models v = none ∧
      ∀ m ∈ list_models (delete_model st v).1, ModelMetadata.version m ≠ v) := by
  constructor
  · intro hch
    simp [delete_model, hget, hch]
  · intro hch
    refine ⟨by simp [delete_model, hget, hch], ?_, ?_⟩
    · simp only [delete_model, hget, hch, Bool.false_eq_true, if_false]
      exact dictGet_dictRemove_self hwf.1
    · intro m hm
      simp only [delete_model, hget, hch, Bool.false_eq_true, if_false,
        list_models, List.mem_map] at hm
      obtain ⟨p, hp, rfl⟩ := hm
      obtain ⟨hmem, hne⟩ := mem_and_ne_of_mem_dictRemove hwf.1 hp
      rw [hwf.2 p hmem]
      exact hne

/-- C7 witness: a two-model registry; deleting the champion `v1` fails
with the state intact, deleting the non-champion `v2` removes it. -/
theorem C7_delete_rules_w :
    let md1 := mkMd "v1" "2024-01-01" 1 42 true true
    let md2 := mkMd "v2" "2024-01-02" 1 43 false false
    let st : RegistryState := ⟨[("v1", md1), ("v2", md2)], [("v1", [1]), ("v2", [2])]⟩
    ((md1.champion = true → delete_model st "v1" = (st, false)) ∧
      (md1.champion = false → (delete_model st "v1").2 = true ∧
        dictGet (delete_model st "v1").1.models "v1" = none ∧
        ∀ m ∈ list_models (delete_model st "v1").1, ModelMetadata.version m ≠ "v1")) ∧
    ((md2.champion = true → delete_model st "v2" = (st, false)) ∧
      (md2.champion = false → (delete_model st "v2").2 = true ∧
        dictGet (delete_model st "v2").1.models "v2" = none ∧
        ∀ m ∈ list_models (delete_model st "v2").1, ModelMetadata.version m ≠ "v2")) :=
  ⟨C7_delete_rules _ "v1" _ (by decide) rfl,
   C7_delete_rules _ "v2" _ (by decide) rfl⟩

/-! Lemmas about keys, champion counts and the champion-flag rewrite. -/

theorem map_fst_map_eq {f : String × ModelMetadata → String × ModelMetadata}
    (hf : ∀ p, (f p).1 = p.1) (l : List (String × ModelMetadata)) :
    (l.map f).map Prod.fst = l.map Prod.fst := by
  induction l with
  | nil => rfl
  | cons p rest ih => simp [hf, ih]

theorem dictGet_isSome_iff_mem {α : Type} (l : List (String × α)) (k : String) :
    (dictGet l k).isSome = true ↔ k ∈ l.map Prod.fst := by
  induction l with
  | nil => simp [dictGet]
  | cons p rest ih =>
    obtain ⟨k', v'⟩ := p
    by_cases h : k' = k
    · simp [dictGet, h]
    · simp [dictGet, h, ih, Ne.symm h]

theorem keys_dictInsert {α : Type} (l : List (String × α)) (k : String) (v : α) :
    (dictInsert l k v).map Prod.fst
      = if k ∈ l.map Prod.fst then l.map Prod.fst else l.map Prod.fst ++ [k] := by
  induction l with
  | nil => simp [dictInsert]
  | cons p rest ih =>
    obtain ⟨k', v'⟩ := p
    by_cases h : k' = k
    · subst h; simp [dictInsert]
    · by_cases hmem : k ∈ rest.map Prod.fst <;>
        simp [dictInsert, h, Ne.symm h, ih, hmem]

theorem nodup_keys_dictInsert {α : Type} {l : List (String × α)} (k : String) (v : α)
    (h : (l.map Prod.fst).Nodup) : ((dictInsert l k v).map Prod.fst).Nodup := by
  rw [keys_dictInsert]
  by_cases hk : k ∈ l.map Prod.fst
  · rw [if_pos hk]; exact h
  · rw [if_neg hk]
    have hdisj : List.Disjoint (l.map Prod.fst) [k] := by
      intro x hx hxk
      simp only [List.mem_singleton] at hxk
      exact hk (hxk ▸ hx)
    exact List.Nodup.append h (List.nodup_singleton k) hdisj

theorem dictRemove_sublist {α : Type} (l : List (String × α)) (k : String) :
    (dictRemove l k).Sublist l := by
  induction l with
  | nil => simp [dictRemove]
  | cons p rest ih =>
    obtain ⟨k', v'⟩ := p
    by_cases h : k' = k
    · simp only [dictRemove, if_pos h]
      exact List.sublist_cons_self _ _
    · simp only [dictRemove, if_neg h]
      exact List.Sublist.cons₂ _ ih

theorem champFilter_dictInsert_le (l : List (String × ModelMetadata)) (k : String)
    (md : ModelMetadata) (h : md.champion = false) :
    ((dictInsert l k md).filter (fun p => p.2.champion)).length
      ≤ (l.filter (fun p => p.2.champion)).length := by
  induction l with
  | nil => simp [dictInsert, List.filter_cons, h]
  | cons p rest ih =>
    obtain ⟨k', v'⟩ := p
    by_cases hk : k' = k
    · subst hk
      have hL : dictInsert ((k', v') :: rest) k' md = (k', md) :: rest := by
        simp [dictInsert]
      rw [hL, List.filter_cons, List.filter_cons]
      by_cases hv : v'.champion = true
      · simp only [hv, h, Bool.false_eq_true, if_false, if_true, if_pos,
          List.length_cons]
        omega
      · simp only [hv, h, Bool.false_eq_true, if_false]
        omega
    · have hL : dictInsert ((k', v') :: rest) k md
          = (k', v') :: dictInsert rest k md := by
        simp [dictInsert, hk]
      rw [hL, List.filter_cons, List.filter_cons]
      by_cases hv : v'.champion = true
      · simp only [hv, if_true, List.length_cons]
        omega
      · simp only [hv, if_false, Bool.false_eq_true]
        exact ih

theorem champCount_register_le (sha : Bytes → Nat) (st : RegistryState) (b : Bytes)
    (md : ModelMetadata) (h : md.champion = false) :
    champCount (register_model sha st b md).1 ≤ champCount st :=
  champFilter_dictInsert_le st.models md.version { md with checksum := sha b } h

theorem champFilter_map_champPreserving
    {f : String × ModelMetadata → String × ModelMetadata}
    (hf : ∀ p, (f p).2.champion = p.2.champion) (l : List (String × ModelMetadata)) :
    ((l.map f).filter (fun p => p.2.champion)).length
      = (l.filter (fun p => p.2.champion)).length := by
  induction l with
  | nil => rfl
  | cons p rest ih =>
    simp only [List.map_cons, List.filter_cons, hf]
    cases hc : p.2.champion <;> simp [ih]

theorem champCount_promote (st : RegistryState) (v : String) :
    champCount (promote_model st v).1 = champCount st := by
  unfold promote_model
  cases h : dictGet st.models v with
  | none => rfl
  | some md =>
    show champCount ⟨st.models.map _, st.files⟩ = champCount st
    unfold champCount
    exact champFilter_map_champPreserving
      (fun p => by by_cases hp : p.1 = v <;> simp [hp]) st.models

theorem champFilter_setChamp_of_not_mem (l : List (String × ModelMetadata))
    (v : String) (h : v ∉ l.map Prod.fst) :
    ((l.map clearChampion).map (markChampion v)).filter (fun p => p.2.champion) = [] := by
  induction l with
  | nil => rfl
  | cons p rest ih =>
    obtain ⟨k, m⟩ := p
    simp only [List.map_cons, List.mem_cons] at h
    push_neg at h
    have hk : ¬ k = v := fun he => h.1 he.symm
    have hhead : (markChampion v (clearChampion (k, m))).2.champion = false := by
      simp [clearChampion, markChampion, hk]
    simp only [List.map_cons, List.filter_cons, hhead, Bool.false_eq_true, if_false]
    exact ih h.2

theorem champFilter_setChamp_of_mem (l : List (String × ModelMetadata)) (v : String)
    (hnd : (l.map Prod.fst).Nodup) (hmem : v ∈ l.map Prod.fst) :
    (((l.map clearChampion).map (markChampion v)).filter
      (fun p => p.2.champion)).map Prod.fst = [v] := by
  induction l with
  | nil => simp at hmem
  | cons p rest ih =>
    obtain ⟨k, m⟩ := p
    simp only [List.map_cons, List.nodup_cons, List.mem_cons] at hnd hmem
    by_cases hk : k = v
    · subst hk
      have hhead : markChampion k (clearChampion (k, m))
          = (k, { m with champion := true }) := by
        simp [clearChampion, markChampion]
      have hstep : List.filter (fun p => p.2.champion)
          ((k, { m with champion := true })
            :: (rest.map clearChampion).map (markChampion k))
          = (k, { m with champion := true }) :: List.filter (fun p => p.2.champion)
              ((rest.map clearChampion).map (markChampion k)) := by
        simp [List.filter_cons]
      rw [List.map_cons, List.map_cons, hhead, hstep,
        champFilter_setChamp_of_not_mem rest k hnd.1]
      rfl
    · rcases hmem with rfl | hmem
      · exact absurd rfl hk
      · have hhead : (markChampion v (clearChampion (k, m))).2.champion = false := by
          simp [clearChampion, markChampion, hk]
        simp only [List.map_cons, List.filter_cons, hhead, Bool.false_eq_true,
          if_false]
        exact ih hnd.2 hmem

theorem championVersions_set_champion (st : RegistryState) (v : String)
    (hnd : (st.models.map Prod.fst).Nodup) (hmem : v ∈ st.models.map Prod.fst) :
    championVersions (set_champion st v).1 = [v] := by
  have hsome : (dictGet st.models v).isSome = true :=
    (dictGet_isSome_iff_mem st.models v).mpr hmem
  unfold set_champion
  cases h : dictGet st.models v with
  | none => rw [h] at hsome; simp at hsome
  | some md =>
    show championVersions ⟨(st.models.map clearChampion).map (markChampion v), st.files⟩ = [v]
    unfold championVersions
    exact champFilter_setChamp_of_mem st.models v hnd hmem

theorem champCount_set_champion_le (st : RegistryState) (v : String)
    (hnd : (st.models.map Prod.fst).Nodup) (hcc : champCount st ≤ 1) :
    champCount (set_champion st v).1 ≤ 1 := by
  by_cases hmem : v ∈ st.models.map Prod.fst
  · have := championVersions_set_champion st v hnd hmem
    unfold championVersions at this
    have hlen := congrArg List.length this
    simp only [List.length_map, List.length_singleton] at hlen
    unfold champCount
    omega
  · unfold set_champion
    cases h : dictGet st.models v with
    | none => exact hcc
    | some md =>
      have : (dictGet st.models v).isSome = true := by simp [h]
      exact absurd ((dictGet_isSome_iff_mem st.models v).mp this) hmem

theorem champCount_delete_le (st : RegistryState) (v : String) :
    champCount (delete_model st v).1 ≤ champCount st := by
  unfold delete_model
  cases h : dictGet st.models v with
  | none => exact le_refl _
  | some md =>
    by_cases hc : md.champion
    · simp [hc]
    · simp only [hc, Bool.false_eq_true, if_false]
      exact ((dictRemove_sublist st.models v).filter _).length_le

theorem keys_set_champion (st : RegistryState) (v : String) :
    ((set_champion st v).1.models).map Prod.fst = st.models.map Prod.fst := by
  unfold set_champion
  cases h : dictGet st.models v with
  | none => rfl
  | some md =>
    show ((st.models.map clearChampion).map (markChampion v)).map Prod.fst = _
    rw [map_fst_map_eq (f := markChampion v) (fun p => by
        by_cases hp : p.1 = v <;> simp [markChampion, hp]),
      map_fst_map_eq (f := clearChampion) (fun p => rfl)]

theorem keys_promote (st : RegistryState) (v : String) :
    ((promote_model st v).1.models).map Prod.fst = st.models.map Prod.fst := by
  unfold promote_model
  cases h : dictGet st.models v with
  | none => rfl
  | some md =>
    exact map_fst_map_eq (fun p => by by_cases hp : p.1 = v <;> simp [hp]) st.models

theorem applyOp_preserves (sha : Bytes → Nat) (st : RegistryState) (op : RegistryOp)
    (hnd : (st.models.map Prod.fst).Nodup) (hcc : champCount st ≤ 1)
    (hop : benignRegister op = true) :
    (((applyOp sha st op).models.map Prod.fst).Nodup ∧
      champCount (applyOp sha st op) ≤ 1) := by
  cases op with
  | register b md =>
    simp only [benignRegister, Bool.not_eq_true'] at hop
    exact ⟨nodup_keys_dictInsert _ _ hnd,
      le_trans (champCount_register_le sha st b md hop) hcc⟩
  | promote v =>
    refine ⟨?_, by rw [show applyOp sha st (.promote v) = (promote_model st v).1 from rfl,
      champCount_promote]; exact hcc⟩
    show (((promote_model st v).1.models).map Prod.fst).Nodup
    rw [keys_promote]; exact hnd
  | setChampion v =>
    refine ⟨?_, champCount_set_champion_le st v hnd hcc⟩
    show (((set_champion st v).1.models).map Prod.fst).Nodup
    rw [keys_set_champion]; exact hnd
  | rollback v =>
    refine ⟨?_, champCount_set_champion_le st v hnd hcc⟩
    show (((set_champion st v).1.models).map Prod.fst).Nodup
    rw [keys_set_champion]; exact hnd
  | delete v =>
    refine ⟨?_, le_trans (champCount_delete_le st v) hcc⟩
    show (((delete_model st v).1.models).map Prod.fst).Nodup
    unfold delete_model
    cases h : dictGet st.models v with
    | none => exact hnd
    | some md =>
      by_cases hc : md.champion
      · simpa [hc] using hnd
      · simp only [hc, Bool.false_eq_true, if_false]
        exact hnd.sublist ((dictRemove_sublist st.models v).map Prod.fst)

theorem applyOps_preserves (sha : Bytes → Nat) (ops : List RegistryOp) :
    ∀ st : RegistryState, (st.models.map Prod.fst).Nodup → champCount st ≤ 1 →
      (∀ op ∈ ops, benignRegister op = true) →
      ((applyOps sha st ops).models.map Prod.fst).Nodup ∧
        champCount (applyOps sha st ops) ≤ 1 := by
  induction ops with
  | nil => exact fun st h1 h2 _ => ⟨h1, h2⟩
  | cons op rest ih =>
    intro st h1 h2 h3
    have step := applyOp_preserves sha st op h1 h2 (h3 op (List.mem_cons_self _ _))
    exact ih (applyOp sha st op) step.1 step.2
      (fun o ho => h3 o (List.mem_cons_of_mem _ ho))

/-! ### C1 — the single-champion invariant -/

/-- C1 counterexample: the claim as stated is false.  `register_model`
stores the caller-supplied metadata verbatim, champion flag included
(model_registry.py line 89 inserts the given `ModelMetadata` with no
guard), so two register operations whose metadata carries
`champion = true` drive an empty registry — which trivially has at most
one champion — to a state with two simultaneous champions. -/
theorem C1_counterexample :
    champCount emptyRegistry ≤ 1 ∧
    champCount (applyOps shaSum emptyRegistry
      [RegistryOp.register [1] (mkMd "a" "2024-01-01" 1 0 false true),
       RegistryOp.register [2] (mkMd "b" "2024-01-02" 1 0 false true)]) = 2 := by
  decide

/-- C1 (amended): for every sequence of registry operations whose
register calls carry metadata with `champion = false` — as every caller
in the repository does — starting from a state with unique versions and
at most one champion, at most one record has `champion = true` after
each operation; and `set_champion v` immediately followed by
`set_champion w` (with `w` registered) leaves exactly `w` as the sole
champion. -/
theorem C1_single_champion (sha : Bytes → Nat) (st0 : RegistryState)
    (ops : List RegistryOp)
    (hnd : (st0.models.map Prod.fst).Nodup)
    (hcc : champCount st0 ≤ 1)
    (hreg : ∀ op ∈ ops, benignRegister op = true) :
    (∀ n, champCount (applyOps sha st0 (ops.take n)) ≤ 1) ∧
    (∀ (st : RegistryState) (v w : String),
      (st.models.map Prod.fst).Nodup →
      w ∈ st.models.map Prod.fst →
      championVersions (set_champion (set_champion st v).1 w).1 = [w]) := by
  constructor
  · intro n
    exact (applyOps_preserves sha (ops.take n) st0 hnd hcc
      (fun op ho => hreg op (List.take_subset n ops ho))).2
  · intro st v w hnd' hmem
    have hnd2 : (((set_champion st v).1.models).map Prod.fst).Nodup := by
      rw [keys_set_champion]; exact hnd'
    have hmem2 : w ∈ ((set_champion st v).1.models).map Prod.fst := by
      rw [keys_set_champion]; exact hmem
    exact championVersions_set_champion _ w hnd2 hmem2

/-- C1 witness: a concrete three-operation run (register `a`, register
`b`, set `a` as champion) keeps the invariant, and the double
`set_champion` fact is instantiated on a concrete two-model registry. -/
theorem C1_single_champion_w :
    (∀ n, champCount (applyOps shaSum emptyRegistry
      ([RegistryOp.register [1] (mkMd "a" "2024-01-01" 1 0 false false),
        RegistryOp.register [2] (mkMd "b" "2024-01-02" 1 0 false false),
        RegistryOp.setChampion "a"].take n)) ≤ 1) ∧
    (∀ (st : RegistryState) (v w : String),
      (st.models.map Prod.fst).Nodup →
      w ∈ st.models.map Prod.fst →
      championVersions (set_champion (set_champion st v).1 w).1 = [w]) :=
  C1_single_champion shaSum emptyRegistry _ (by decide) (by decide) (by decide)

/-! Lemmas for the retraining pipeline. -/

theorem dictInsert_of_not_mem {α : Type} {l : List (String × α)} {k : String}
    (v : α) (h : k ∉ l.map Prod.fst) : dictInsert l k v = l ++ [(k, v)] := by
  induction l with
  | nil => rfl
  | cons p rest ih =>
    obtain ⟨k', v'⟩ := p
    simp only [List.map_cons, List.mem_cons] at h
    push_neg at h
    simp [dictInsert, Ne.symm h.1, ih h.2]

theorem dictInsert_ne_nil {α : Type} (l : List (String × α)) (k : String) (v : α) :
    dictInsert l k v ≠ [] := by
  cases l with
  | nil => simp [dictInsert]
  | cons p rest =>
    obtain ⟨k', v'⟩ := p
    by_cases h : k' = k <;> simp [dictInsert, h]

theorem get_champion_model_ne_none (st : RegistryState) (h : st.models ≠ []) :
    get_champion_model st ≠ none := by
  unfold get_champion_model get_latest_model
  cases hf : st.models.find? (fun p => p.2.champion) with
  | some p => simp
  | none =>
    cases hm : st.models with
    | nil => exact absurd hm h
    | cons p rest => simp

theorem find?_eq_head_of_filter {α : Type} (p : α → Bool) (l : List α) (x : α)
    (xs : List α) (h : l.filter p = x :: xs) : l.find? p = some x := by
  induction l with
  | nil => simp at h
  | cons a rest ih =>
    by_cases ha : p a = true
    · rw [List.filter_cons, if_pos ha] at h
      injection h with h1 _
      rw [List.find?_cons_of_pos _ ha, h1]
    · rw [List.filter_cons, if_neg ha] at h
      rw [List.find?_cons_of_neg _ ha]
      exact ih h

/-! ### C3 — the cold-start auto-promotion path is unreachable -/

/-- C3: the code's "no previous champion" auto-promotion is dead code.
At the claimed scenario — drift score 85, sufficient training data, a
registry with no champion (here: empty) — `trigger_retraining` reports
`promoted = false` (the candidate fails the improvement margin against
itself), not `promoted = true` with reason "no previous champion"; and
for every input whatsoever the `autoPromoted` result is unreachable,
because the champion is read back only after the candidate was
registered and `get_champion_model` falls back to the latest model. -/
theorem C3_retrain_without_champion :
    ((trigger_retraining shaSum emptyRegistry 500 [1] "v1" "t1" 0 true 85
        "drift_detected").result = RetrainResult.completed "v1" false 0 ∧
      (trigger_retraining shaSum emptyRegistry 500 [1] "v1" "t1" 0 true 85
        "drift_detected").result.promotedFlag = false) ∧
    (∀ (sha : Bytes → Nat) (st : RegistryState) (nS : Nat) (b : Bytes)
        (v t : String) (acc : ℚ) (val : Bool) (ds : ℚ) (r w : String),
      (trigger_retraining sha st nS b v t acc val ds r).result
        ≠ RetrainResult.autoPromoted w) := by
  constructor
  · constructor
    · show (trigger_retraining _ _ _ _ _ _ _ _ _ _).result = _
      unfold trigger_retraining
      norm_num [minTrainingSamples, register_model, dictInsert, get_champion_model,
        get_latest_model, List.find?, candidateMetadata, improvementMargin,
        emptyRegistry]
    · show (trigger_retraining _ _ _ _ _ _ _ _ _ _).result.promotedFlag = _
      unfold trigger_retraining
      norm_num [minTrainingSamples, register_model, dictInsert, get_champion_model,
        get_latest_model, List.find?, candidateMetadata, improvementMargin,
        emptyRegistry, RetrainResult.promotedFlag]
  · intro sha st nS b v t acc val ds r w
    unfold trigger_retraining
    by_cases hn : nS < minTrainingSamples
    · simp [hn]
    · simp only [hn, if_false]
      have hne : get_champion_model
          (register_model sha st b (candidateMetadata v t acc ds nS r)).1 ≠ none :=
        get_champion_model_ne_none _ (dictInsert_ne_nil _ _ _)
      cases hc : get_champion_model
          (register_model sha st b (candidateMetadata v t acc ds nS r)).1 with
      | none => exact absurd hc hne
      | some cur =>
        simp only [hc]
        by_cases hv : val = false
        · simp [hv]
        · simp only [hv, if_false]
          by_cases himp : improvementMargin ≤ acc - cur.accuracy
          · simp [himp]
          · simp [himp]

/-! ### C8 — below-margin candidate leaves the champion in place -/

/-- C8: when the candidate passes validation but improves on the champion
by less than the improvement margin, `trigger_retraining` reports
`promoted = false` and the registry's champion designation is the same
before and after the call. -/
theorem C8_below_margin_keeps_champion (sha : Bytes → Nat) (st : RegistryState)
    (nS : Nat) (b : Bytes) (vNew t : String) (accNew ds : ℚ) (r : String)
    (c : String) (mdc : ModelMetadata)
    (hn : ¬ nS < minTrainingSamples)
    (hfresh : vNew ∉ st.models.map Prod.fst)
    (hchamp : st.models.filter (fun p => p.2.champion) = [(c, mdc)])
    (himp : accNew - mdc.accuracy < improvementMargin) :
    (trigger_retraining sha st nS b vNew t accNew true ds r).result
      = RetrainResult.completed vNew false (accNew - mdc.accuracy) ∧
    championVersions
        (trigger_retraining sha st nS b vNew t accNew true ds r).registry
      = championVersions st := by
  have hmodels1 : (register_model sha st b
      (candidateMetadata vNew t accNew ds nS r)).1.models
      = st.models
        ++ [(vNew, { candidateMetadata vNew t accNew ds nS r with checksum := sha b })] :=
    dictInsert_of_not_mem _ hfresh
  have hfilter1 : ((register_model sha st b
      (candidateMetadata vNew t accNew ds nS r)).1.models).filter
        (fun p => p.2.champion) = [(c, mdc)] := by
    rw [hmodels1, List.filter_append, hchamp]
    simp [candidateMetadata]
  have hchmp : get_champion_model (register_model sha st b
      (candidateMetadata vNew t accNew ds nS r)).1 = some mdc := by
    unfold get_champion_model
    rw [find?_eq_head_of_filter _ _ _ _ hfilter1]
  have hlt : ¬ improvementMargin ≤ accNew - mdc.accuracy := not_le.mpr himp
  constructor
  · show (trigger_retraining _ _ _ _ _ _ _ _ _ _).result = _
    unfold trigger_retraining
    simp only [hn, if_false, hchmp, hlt, if_true]
    simp
  · show championVersions (trigger_retraining _ _ _ _ _ _ _ _ _ _).registry = _
    unfold trigger_retraining
    simp only [hn, if_false, hchmp, hlt]
    simp [championVersions, hfilter1, hchamp]

/-- C8 witness: a registry whose sole champion `v1` has accuracy 0; the
candidate `v2` also has accuracy 0, improving by 0 < 0.02, so it is not
promoted and `v1` stays champion. -/
theorem C8_below_margin_keeps_champion_w :
    (trigger_retraining shaSum
        ⟨[("v1", mkMd "v1" "t0" 0 5 false true)], [("v1", [1])]⟩
        500 [2] "v2" "t1" 0 true 80 "drift_detected").result
      = RetrainResult.completed "v2" false (0 - (mkMd "v1" "t0" 0 5 false true).accuracy) ∧
    championVersions
        (trigger_retraining shaSum
          ⟨[("v1", mkMd "v1" "t0" 0 5 false true)], [("v1", [1])]⟩
          500 [2] "v2" "t1" 0 true 80 "drift_detected").registry
      = championVersions ⟨[("v1", mkMd "v1" "t0" 0 5 false true)], [("v1", [1])]⟩ :=
  C8_below_margin_keeps_champion shaSum _ 500 [2] "v2" "t1" 0 80 "drift_detected"
    "v1" (mkMd "v1" "t0" 0 5 false true) (by decide) (by decide) rfl
    (by simp [mkMd, improvementMargin])

/-! Lemmas about the detect_drift feature loop. -/

theorem featureLoop_fst (i : Nat) (features : List FeatureStats) :
    (featureLoop i features).1 = (features.filter affectedTest).map featureScore := by
  induction features generalizing i with
  | nil => rfl
  | cons fs rest ih =>
    by_cases h : affectedTest fs = true
    · simp [featureLoop, h, List.filter_cons, ih]
    · simp [featureLoop, h, List.filter_cons, ih]

theorem featureLoop_snd_length (i : Nat) (features : List FeatureStats) :
    (featureLoop i features).2.length = (features.filter affectedTest).length := by
  induction features generalizing i with
  | nil => rfl
  | cons fs rest ih =>
    by_cases h : affectedTest fs = true
    · simp [featureLoop, h, List.filter_cons, ih]
    · simp [featureLoop, h, List.filter_cons, ih]

/-! ### C4 — the overall score averages only the contributing signals -/

/-- C4 counterexample: with two features of which only the first is
affected (PSI 0.3 versus 0.1, all other statistics zero), the code's
overall score is 37.5 — the mean over the one affected feature's score —
while the claim's reading (mean over the feature score of EVERY feature,
here (37.5 + 12.5)/2) gives 25. -/
theorem C4_counterexample :
    (detect_drift true 30 [⟨3/10, 0, 1, 0, false, false⟩,
        ⟨1/10, 0, 1, 0, false, false⟩] none none).drift_score = 75/2 ∧
    claimedOverallScore [⟨3/10, 0, 1, 0, false, false⟩,
        ⟨1/10, 0, 1, 0, false, false⟩] none none = 25 ∧
    (75 : ℚ)/2 ≠ 25 := by
  have h0 : affectedTest ⟨3/10, 0, 1, 0, false, false⟩ = true := by
    show (decide (driftThreshold < (3 : ℚ)/10) || false || false) = true
    rw [decide_eq_true (by norm_num [driftThreshold] : driftThreshold < (3 : ℚ)/10)]
    rfl
  have h1 : affectedTest ⟨1/10, 0, 1, 0, false, false⟩ = false := by
    show (decide (driftThreshold < (1 : ℚ)/10) || false || false) = false
    rw [decide_eq_false (by norm_num [driftThreshold] : ¬ driftThreshold < (1 : ℚ)/10)]
    rfl
  have hs0 : featureScore ⟨3/10, 0, 1, 0, false, false⟩ = 75/2 := by
    norm_num [featureScore]
  have hs1 : featureScore ⟨1/10, 0, 1, 0, false, false⟩ = 25/2 := by
    norm_num [featureScore]
  have hloop : featureLoop 0 [⟨3/10, 0, 1, 0, false, false⟩,
      ⟨1/10, 0, 1, 0, false, false⟩] = ([(75 : ℚ)/2], [0]) := by
    simp only [featureLoop, h0, h1, if_true, Bool.false_eq_true, if_false, hs0]
  refine ⟨?_, ?_, by norm_num⟩
  · show (detect_drift _ _ _ _ _).drift_score = _
    unfold detect_drift
    rw [if_neg (by simp), if_neg (by norm_num)]
    simp only [hloop, Option.map_none, Option.toList_none, List.append_nil]
    norm_num
  · unfold claimedOverallScore
    simp only [List.map_cons, List.map_nil, hs0, hs1, Option.map_none,
      Option.toList_none, List.append_nil]
    norm_num

/-- C4 (amended): with a reference set and at least 30 current samples,
the overall drift score is the mean of the per-signal scores of the
AFFECTED features — an unaffected feature's score is not averaged in —
plus the prediction-drift score when predictions are available and the
concept-drift score when labels are available, clamped to [0, 100] (and
0 when no signal contributed at all). -/
theorem C4_overall_score (cnt : Nat) (features : List FeatureStats)
    (ps : Option PredictionStats) (cs : Option ConceptStats) (h : ¬ cnt < 30) :
    (detect_drift true cnt features ps cs).drift_score
      = affectedOverallScore features ps cs := by
  unfold detect_drift affectedOverallScore
  rw [if_neg (by simp), if_neg h]
  simp only [featureLoop_fst]

/-- C4 witness: the amended statement at a concrete input — one affected
feature, one unaffected, no prediction or label stream. -/
theorem C4_overall_score_w :
    (detect_drift true 30 [⟨3/10, 0, 1, 0, false, false⟩,
        ⟨1/10, 0, 1, 0, false, false⟩] none none).drift_score
      = affectedOverallScore [⟨3/10, 0, 1, 0, false, false⟩,
          ⟨1/10, 0, 1, 0, false, false⟩] none none :=
  C4_overall_score 30 _ none none (by decide)

/-! ### C5 — drift-type priority only runs when a feature is affected -/

/-- C5 counterexample: a label stream whose PSI (0.5) far exceeds the 0.2
threshold, but no affected feature — the code classifies the drift type
as "none", not "concept_drift" as the claim's unconditional priority
order would demand. -/
theorem C5_counterexample :
    (detect_drift true 30 [⟨0, 0, 1, 0, false, false⟩] none
        (some ⟨1/2⟩)).drift_type = "none" ∧
    driftThreshold < (ConceptStats.mk (1/2)).psi ∧
    (detect_drift true 30 [⟨0, 0, 1, 0, false, false⟩] none
        (some ⟨1/2⟩)).drift_type ≠ "concept_drift" := by
  have h1 : affectedTest ⟨0, 0, 1, 0, false, false⟩ = false := by
    show (decide (driftThreshold < (0 : ℚ)) || false || false) = false
    rw [decide_eq_false (by norm_num [driftThreshold] : ¬ driftThreshold < (0 : ℚ))]
    rfl
  have hloop : featureLoop 0 [⟨0, 0, 1, 0, false, false⟩]
      = (([] : List ℚ), ([] : List Nat)) := by
    simp only [featureLoop, h1, Bool.false_eq_true, if_false]
  have hmain : (detect_drift true 30 [⟨0, 0, 1, 0, false, false⟩] none
      (some ⟨1/2⟩)).drift_type = "none" := by
    unfold detect_drift
    rw [if_neg (by simp), if_neg (by norm_num)]
    simp [hloop, classify_drift_type]
  exact ⟨hmain, by norm_num [driftThreshold], by rw [hmain]; decide⟩

/-- C5 (amended): with a reference set and at least 30 current samples,
the drift type is classified by the concept > prediction > data priority
chain ONLY when at least one feature is affected; when no feature is
affected the type is "none", regardless of how large the concept- or
prediction-stream PSI is. -/
theorem C5_drift_type (cnt : Nat) (features : List FeatureStats)
    (ps : Option PredictionStats) (cs : Option ConceptStats) (h : ¬ cnt < 30) :
    (detect_drift true cnt features ps cs).drift_type
      = (if features.any affectedTest then
          if psiExceedsThreshold (cs.map ConceptStats.psi) then "concept_drift"
          else if psiExceedsThreshold (ps.map PredictionStats.psi) then
            "prediction_drift"
          else "data_drift"
        else "none") := by
  unfold detect_drift
  rw [if_neg (by simp), if_neg h]
  show classify_drift_type _ _ (featureLoop 0 features).2 = _
  unfold classify_drift_type
  have hlen : (0 < (featureLoop 0 features).2.length)
      ↔ features.any affectedTest = true := by
    rw [featureLoop_snd_length, List.length_pos, ne_eq, List.filter_eq_nil_iff,
      List.any_eq_true]
    push_neg
    constructor
    · rintro ⟨x, hx, hpx⟩
      exact ⟨x, hx, by simpa using hpx⟩
    · rintro ⟨x, hx, hpx⟩
      exact ⟨x, hx, by simpa using hpx⟩
  by_cases hany : features.any affectedTest = true
  · rw [if_pos (hlen.mpr hany), if_pos hany]
  · rw [if_neg (fun hpos => hany (hlen.mp hpos)), if_neg hany]

/-- C5 witness: the amended classification at a concrete input — no
affected feature, label PSI 0.5 — yields "none". -/
theorem C5_drift_type_w :
    (detect_drift true 30 [⟨0, 0, 1, 0, false, false⟩] none
        (some ⟨1/2⟩)).drift_type
      = (if [(⟨0, 0, 1, 0, false, false⟩ : FeatureStats)].any affectedTest then
          if psiExceedsThreshold ((some (ConceptStats.mk (1/2))).map ConceptStats.psi)
            then "concept_drift"
          else if psiExceedsThreshold ((none : Option PredictionStats).map
              PredictionStats.psi) then "prediction_drift"
          else "data_drift"
        else "none") :=
  C5_drift_type 30 _ none (some ⟨1/2⟩) (by decide)

/-! Lemmas about ADWIN on a constant stream. -/

theorem splitQualifies_replicate (n i : Nat) (c L : ℚ) (hL : 0 ≤ L) :
    splitQualifies (List.replicate n c) L i = false := by
  unfold splitQualifies
  simp only [List.take_replicate, List.drop_replicate, List.length_replicate,
    List.sum_replicate, Bool.or_eq_true, decide_eq_true_eq]
  by_cases hsmall : min i n < 5 ∨ n - i < 5
  · rw [if_pos hsmall]
  · rw [if_neg hsmall]
    push_neg at hsmall
    obtain ⟨h0, h1⟩ := hsmall
    have hn0 : (0 : ℚ) < ((min i n : ℕ) : ℚ) :=
      Nat.cast_pos.mpr (lt_of_lt_of_le (by norm_num : 0 < 5) h0)
    have hn1 : (0 : ℚ) < ((n - i : ℕ) : ℚ) :=
      Nat.cast_pos.mpr (lt_of_lt_of_le (by norm_num : 0 < 5) h1)
    have hmean0 : (min i n) • c / ((min i n : ℕ) : ℚ) = c := by
      rw [nsmul_eq_mul, mul_comm, mul_div_assoc, div_self (ne_of_gt hn0), mul_one]
    have hmean1 : (n - i) • c / ((n - i : ℕ) : ℚ) = c := by
      rw [nsmul_eq_mul, mul_comm, mul_div_assoc, div_self (ne_of_gt hn1), mul_one]
    rw [hmean0, hmean1, sub_self]
    have hpos : (0 : ℚ) ≤ (1 / (2 * (1 / (1 / ((min i n : ℕ) : ℚ)
        + 1 / ((n - i : ℕ) : ℚ))))) * L := by
      apply mul_nonneg _ hL
      positivity
    exact decide_eq_false (by simpa using not_lt.mpr hpos)

theorem firstQualifyingSplit_replicate (n : Nat) (c L : ℚ) (hL : 0 ≤ L) :
    firstQualifyingSplit (List.replicate n c) L = none := by
  unfold firstQualifyingSplit
  rw [List.find?_eq_none]
  intro i hi
  simp [splitQualifies_replicate _ _ _ _ hL]

theorem addElement_const (a : ADWIN) (c : ℚ) (hL : 0 ≤ a.ln4OverDelta)
    (hw : a.window = List.replicate a.width c) (hd : a.drift_count = 0) :
    (a.addElement c).2 = false ∧
    (a.addElement c).1.window = List.replicate ((a.addElement c).1.width) c ∧
    (a.addElement c).1.width = a.width + 1 ∧
    (a.addElement c).1.ln4OverDelta = a.ln4OverDelta ∧
    (a.addElement c).1.drift_detected = false ∧
    (a.addElement c).1.drift_count = 0 := by
  obtain ⟨delta, L, w, t, v, width, dd, dc⟩ := a
  simp only at hw hd hL
  subst hw hd
  unfold ADWIN.addElement
  rw [← List.replicate_succ' width c]
  cases width with
  | zero => simp
  | succ m =>
    rw [if_pos (by omega : 1 < m + 1 + 1)]
    unfold ADWIN.detectChange
    simp only
    rw [firstQualifyingSplit_replicate _ _ _ hL]
    simp

theorem feed_replicate (a : ADWIN) (c : ℚ) (n : Nat) (hL : 0 ≤ a.ln4OverDelta)
    (hw : a.window = List.replicate a.width c) (hd : a.drift_count = 0)
    (hdd : a.drift_detected = false) :
    (a.feed (List.replicate n c)).2 = List.replicate n false ∧
    (a.feed (List.replicate n c)).1.drift_count = 0 ∧
    (a.feed (List.replicate n c)).1.drift_detected = false := by
  induction n generalizing a with
  | zero => exact ⟨rfl, hd, hdd⟩
  | succ m ih =>
    obtain ⟨hstep2, hstepw, _, hstepL, hstepdd, hstepdc⟩ :=
      addElement_const a c hL hw hd
    have ihres := ih ((a.addElement c).1) (hstepL ▸ hL) hstepw hstepdc hstepdd
    have hfeed : a.feed (c :: List.replicate m c)
        = (((a.addElement c).1.feed (List.replicate m c)).1,
            (a.addElement c).2 :: ((a.addElement c).1.feed (List.replicate m c)).2) :=
      rfl
    rw [List.replicate_succ, hfeed]
    exact ⟨by rw [List.replicate_succ]
              exact congrArg₂ List.cons hstep2 ihres.1,
      ihres.2.1, ihres.2.2⟩

/-! ### C9 — no drift on a constant stream -/

/-- C9: feeding a stream of strictly identical values, of any length, one
at a time into a fresh ADWIN detector never reports drift: every
`add_element` call returns false, the cumulative drift counter stays 0
and the last-call flag ends false.  The hypothesis `0 ≤ log(4/δ)` holds
for every confidence parameter `δ ≤ 4`, in particular the code's default
`δ = 0.002`. -/
theorem C9_adwin_constant_stream (delta ln4OverDelta c : ℚ) (n : Nat)
    (hL : 0 ≤ ln4OverDelta) :
    ((ADWIN.init delta ln4OverDelta).feed (List.replicate n c)).2
      = List.replicate n false ∧
    ((ADWIN.init delta ln4OverDelta).feed (List.replicate n c)).1.drift_count = 0 ∧
    ((ADWIN.init delta ln4OverDelta).feed
      (List.replicate n c)).1.drift_detected = false :=
  feed_replicate (ADWIN.init delta ln4OverDelta) c n hL rfl rfl rfl

/-- C9 witness: twelve identical observations into a fresh detector with
the default δ = 0.002 (log(4/δ) = log 2000 ≈ 7.6, here any nonnegative
stand-in works; 8 is used). -/
theorem C9_adwin_constant_stream_w :
    ((ADWIN.init (1/500) 8).feed (List.replicate 12 1)).2
      = List.replicate 12 false ∧
    ((ADWIN.init (1/500) 8).feed (List.replicate 12 1)).1.drift_count = 0 ∧
    ((ADWIN.init (1/500) 8).feed (List.replicate 12 1)).1.drift_detected = false :=
  C9_adwin_constant_stream (1/500) 8 1 12 (by decide)

end RTCDDARMP
